import Mathlib

/-!
# Shallow embedding of the flagit quality-control detectors

This file embeds the detectors of `flagit/flagit.py` (functions `flag_c01`
through `flag_d06`, `apply_savgol`, and the pipeline `flagit`) and proves
properties of them.

Modelling conventions:
* An hourly observation table (a pandas DataFrame) becomes a `Table`
  structure.  Each float column is a `List (Option ℚ)`; a missing value
  (NaN) is `none`.  An entirely absent optional column is `none` at the
  column level (`Option (List (Option ℚ))`).
* Float arithmetic is idealised as exact rational arithmetic.  Comparisons
  against a missing value are false, exactly as IEEE comparisons against
  NaN are false in pandas boolean masks.
* Division by zero is modelled as a missing result.  (Pandas produces an
  infinity there; for every theorem below the divisor is either assumed
  nonzero or the surrounding condition is insensitive to the difference.)
* Code that raises (`flag_d06` dereferencing the absent `deriv2` column
  raises `AttributeError`) is modelled with `Option Table`: `none` is the
  raised exception.
* `round(x, 3)` in numpy/pandas rounds half to even; `round3` implements
  that on ℚ.
-/

/-- Value of a column at row `i`; rows outside the column are missing. -/
def getO (l : List (Option ℚ)) (i : ℕ) : Option ℚ := l.getD i none

/-- Subtraction with NaN propagation. -/
def oSub : Option ℚ → Option ℚ → Option ℚ
  | some a, some b => some (a - b)
  | _, _ => none

/-- Division with NaN propagation; division by zero is modelled as missing. -/
def oDiv : Option ℚ → Option ℚ → Option ℚ
  | some a, some b => if b = 0 then none else some (a / b)
  | _, _ => none

/-- Absolute value with NaN propagation. -/
def oAbs : Option ℚ → Option ℚ
  | some a => some |a|
  | none => none

/-- `x < c` as pandas evaluates it: false when `x` is NaN. -/
def oLtB : Option ℚ → ℚ → Bool
  | some a, c => decide (a < c)
  | none, _ => false

/-- `x > c` as pandas evaluates it: false when `x` is NaN. -/
def oGtB : Option ℚ → ℚ → Bool
  | some a, c => decide (c < a)
  | none, _ => false

/-- `x < y` on two column values: false when either is NaN. -/
def oLtB2 : Option ℚ → Option ℚ → Bool
  | some a, some b => decide (a < b)
  | _, _ => false

/-- `x == y` on two column values: false when either is NaN (NaN ≠ NaN). -/
def oEqB : Option ℚ → Option ℚ → Bool
  | some a, some b => decide (a = b)
  | _, _ => false

/-- Floor of a rational, via flooring integer division. -/
def floorQ (q : ℚ) : ℤ := Int.fdiv q.num (q.den : ℤ)

/-- Round to the nearest integer, ties to even (numpy rounding). -/
def roundHalfEven (q : ℚ) : ℤ :=
  let f := floorQ q
  let r := q - (f : ℚ)
  if r < 1 / 2 then f
  else if 1 / 2 < r then f + 1
  else if f % 2 = 0 then f else f + 1

/-- `round(x, 3)` of numpy/pandas, on exact rationals. -/
def round3 (q : ℚ) : ℚ := (roundHalfEven (q * 1000) : ℚ) / 1000

/-- Number of valid (non-missing) entries of a window. -/
def countValid (l : List (Option ℚ)) : ℕ := (l.filterMap id).length

/-- `Series.diff(k)` at row `t`: `x[t] - x[t-k]`, missing for `t < k` or when
either operand is missing. -/
def diffK (k : ℕ) (sm : List (Option ℚ)) (t : ℕ) : Option ℚ :=
  if k ≤ t then oSub (getO sm t) (getO sm (t - k)) else none

/-- The trailing window of length 25 ending at row `t`, as pandas
`rolling(window=25)` slices it: rows `max(0, t-24) .. t`. -/
def trailWindow (sm : List (Option ℚ)) (t : ℕ) : List (Option ℚ) :=
  (List.range (min (t + 1) 25)).map (fun k => getO sm (t - 24 + k))

/-- Sample variance (ddof = 1) of a list of values; missing when fewer than
two values are available (pandas `rolling(...).std()` is NaN there even with
`min_periods=1`, because the ddof-1 divisor vanishes). -/
def sampleVarList (xs : List ℚ) : Option ℚ :=
  if 2 ≤ xs.length then
    some ((xs.map (fun x => (x - xs.sum / (xs.length : ℚ)) ^ 2)).sum /
      ((xs.length : ℚ) - 1))
  else none

/-- `soil_moisture.rolling(min_periods=1, window=25).std() ^ 2` at row `t`:
the sample variance of the valid values of the trailing 25-window.  The code
multiplies the standard deviation by 2 (`std_x2`); since the standard
deviation is irrational in general we carry the variance and compare
squares (see `gt2std`). -/
def rollVar25 (sm : List (Option ℚ)) (t : ℕ) : Option ℚ :=
  sampleVarList ((trailWindow sm t).filterMap id)

/-- `rolling(min_periods=1, window=24).sum()` at row `t`: sum of the valid
values of the trailing 24-window, missing when none is valid. -/
def rollSum24 (p : List (Option ℚ)) (t : ℕ) : Option ℚ :=
  if 0 < countValid ((List.range (min (t + 1) 24)).map (fun k => getO p (t - 23 + k)))
  then some (((List.range (min (t + 1) 24)).map (fun k => getO p (t - 23 + k))).filterMap id).sum
  else none

/-- The comparison `rise > std * 2` of the rise detectors, with
`std = sqrt(v)` the sample standard deviation of the trailing window.
Encoded inside ℚ: for `r > 0`, `r > 2·sqrt(v) ↔ r² > 4·v` (the variance `v`
is a sum of squares over a positive divisor, hence nonnegative); for
`r ≤ 0` the comparison with a nonnegative standard deviation is false.
Comparisons involving a missing operand are false. -/
def gt2std : Option ℚ → Option ℚ → Bool
  | some r, some v => decide (0 < r) && decide (4 * v < r ^ 2)
  | _, _ => false

/-- Index clamping used by the savgol `mode='nearest'` edge policy. -/
def nearestIdx (n : ℕ) (j : ℤ) : ℕ := Int.toNat (max 0 (min j ((n : ℤ) - 1)))

/-- Column value with nearest-edge extension. -/
def getN (sm : List (Option ℚ)) (j : ℤ) : Option ℚ := getO sm (nearestIdx sm.length j)

/-- `savgol_filter(sm, 3, 2, deriv=1, mode='nearest')`.  The quadratic through
three consecutive samples has first derivative `(x[i+1] - x[i-1]) / 2` at the
centre; edges replicate the boundary sample.  The centre sample has filter
weight zero but a NaN there still poisons the convolution (NaN·0 = NaN). -/
def savgolD1 (sm : List (Option ℚ)) : List (Option ℚ) :=
  (List.range sm.length).map (fun i =>
    match getN sm ((i : ℤ) - 1), getN sm (i : ℤ), getN sm ((i : ℤ) + 1) with
    | some a, some _, some c => some ((c - a) / 2)
    | _, _, _ => none)

/-- `savgol_filter(sm, 3, 2, deriv=2, mode='nearest')`: second derivative
`x[i-1] - 2·x[i] + x[i+1]` of the fitted quadratic, nearest-edge extended. -/
def savgolD2 (sm : List (Option ℚ)) : List (Option ℚ) :=
  (List.range sm.length).map (fun i =>
    match getN sm ((i : ℤ) - 1), getN sm (i : ℤ), getN sm ((i : ℤ) + 1) with
    | some a, some b, some c => some (a - 2 * b + c)
    | _, _, _ => none)

/-- The observation table.  Required columns `soil_moisture` and `qflag`;
the optional float columns are `none` when absent from the dataset.
`deriv1`/`deriv2` are the columns written by `apply_savgol` (absent until it
runs).  Rows are positional; the hourly timestamp index is implicit. -/
structure Table where
  soil_moisture : List (Option ℚ)
  soil_temperature : Option (List (Option ℚ)) := none
  air_temperature : Option (List (Option ℚ)) := none
  gldas_soil_temperature : Option (List (Option ℚ)) := none
  precipitation : Option (List (Option ℚ)) := none
  gldas_precipitation : Option (List (Option ℚ)) := none
  deriv1 : Option (List (Option ℚ)) := none
  deriv2 : Option (List (Option ℚ)) := none
  qflag : List (Finset ℕ)
deriving DecidableEq

/-- The qflag set of row `t` (empty beyond the end of the column). -/
def qflagAt (df : Table) (t : ℕ) : Finset ℕ := df.qflag.getD t ∅

/-- `df.qflag[index].apply(lambda x: x.add(code))`: add `code` to the qflag
set of every row selected by the boolean mask.  `i` is the index of the
first row of `q`. -/
def addFlag (c : ℕ) (m : ℕ → Bool) : ℕ → List (Finset ℕ) → List (Finset ℕ)
  | _, [] => []
  | i, s :: rest => (if m i then insert c s else s) :: addFlag c m (i + 1) rest

/-- Mask of `flag_c01`: `soil_moisture < 0`. -/
def mask_c01 (df : Table) (i : ℕ) : Bool := oLtB (getO df.soil_moisture i) 0

/-- `flag_c01`: lower boundary, code 1. -/
def flag_c01 (df : Table) : Table :=
  { df with qflag := addFlag 1 (mask_c01 df) 0 df.qflag }

/-- Mask of `flag_c02`: `soil_moisture > 60`. -/
def mask_c02 (df : Table) (i : ℕ) : Bool := oGtB (getO df.soil_moisture i) 60

/-- `flag_c02`: upper boundary, code 2. -/
def flag_c02 (df : Table) : Table :=
  { df with qflag := addFlag 2 (mask_c02 df) 0 df.qflag }

/-- `flag_c03`: saturation point, code 3.  `if not hwsd: return` skips the
rule both when the threshold is `None` and when it is `0.0` (Python
falsiness). -/
def flag_c03 (df : Table) (hwsd : Option ℚ) : Table :=
  match hwsd with
  | none => df
  | some h =>
    if h = 0 then df
    else { df with qflag := addFlag 3 (fun i => oGtB (getO df.soil_moisture i) h) 0 df.qflag }

/-- `flag_d01`: in-situ soil temperature below 0, code 4; skipped when the
column is absent. -/
def flag_d01 (df : Table) : Table :=
  match df.soil_temperature with
  | none => df
  | some st => { df with qflag := addFlag 4 (fun i => oLtB (getO st i) 0) 0 df.qflag }

/-- `flag_d02`: in-situ air temperature below 0, code 5; skipped when the
column is absent. -/
def flag_d02 (df : Table) : Table :=
  match df.air_temperature with
  | none => df
  | some at2 => { df with qflag := addFlag 5 (fun i => oLtB (getO at2 i) 0) 0 df.qflag }

/-- `flag_d03`: GLDAS soil temperature below 0, code 6; skipped when the
column is absent. -/
def flag_d03 (df : Table) : Table :=
  match df.gldas_soil_temperature with
  | none => df
  | some gt2 => { df with qflag := addFlag 6 (fun i => oLtB (getO gt2 i) 0) 0 df.qflag }

/-- Mask of `flag_d04` at row `i`:
`rise1h > 0 & rise24h > std_x2 & precipitation < 0.2`
(`rise1h = diff(1)`, `rise24h = diff(24)`, `std_x2` twice the trailing
25-window standard deviation, instantaneous precipitation). -/
def mask_d04 (sm p : List (Option ℚ)) (i : ℕ) : Bool :=
  oGtB (diffK 1 sm i) 0 && gt2std (diffK 24 sm i) (rollVar25 sm i) &&
    oLtB (getO p i) (1 / 5)

/-- `flag_d04`: in-situ rise without precipitation, code 7; skipped when the
`precipitation` column is absent. -/
def flag_d04 (df : Table) : Table :=
  match df.precipitation with
  | none => df
  | some p => { df with qflag := addFlag 7 (mask_d04 df.soil_moisture p) 0 df.qflag }

/-- Mask of `flag_d05` at row `i`: same rise test but against the trailing
24-hour sum of GLDAS precipitation. -/
def mask_d05 (sm gp : List (Option ℚ)) (i : ℕ) : Bool :=
  oGtB (diffK 1 sm i) 0 && gt2std (diffK 24 sm i) (rollVar25 sm i) &&
    oLtB (rollSum24 gp i) (1 / 5)

/-- `flag_d05`: model rise without precipitation, code 8; skipped when the
`gldas_precipitation` column is absent. -/
def flag_d05 (df : Table) : Table :=
  match df.gldas_precipitation with
  | none => df
  | some gp => { df with qflag := addFlag 8 (mask_d05 df.soil_moisture gp) 0 df.qflag }

/-- `criteria1[t]`: the code computes
`round(sm.shift(-1).div(sm).shift(1), 3)`, i.e. the lag-1 ratio
`sm[t] / sm[t-1]` rounded to 3 decimals (the inner division pairs `sm[i+1]`
with `sm[i]`, and the outer `shift(1)` re-labels that to row `i+1`). -/
def criteria1 (sm : List (Option ℚ)) (t : ℕ) : Option ℚ :=
  if 1 ≤ t then (oDiv (getO sm t) (getO sm (t - 1))).map round3 else none

/-- `criteria2[t]`: `round(abs(deriv2.div(deriv2.shift(-2)).shift(1)), 3)`,
i.e. `|deriv2[t-1] / deriv2[t+1]|` rounded to 3 decimals. -/
def criteria2 (d2 : List (Option ℚ)) (t : ℕ) : Option ℚ :=
  if 1 ≤ t then (oAbs (oDiv (getO d2 (t - 1)) (getO d2 (t + 1)))).map round3 else none

/-- `criteria3[t]`: the centred 25-window `t-12 .. t+12` must be complete
(`min_periods=25`, so every one of the 25 samples valid — truncated edge
windows are missing); the centre sample is deleted, and the result is the
sample variance of the remaining 24 values divided by their mean (the
boxcar weight vector zeroes the centre, so the weighted mean is the mean of
the same 24 values). -/
def criteria3 (sm : List (Option ℚ)) (t : ℕ) : Option ℚ :=
  if 12 ≤ t ∧ t + 12 < sm.length ∧
      ((List.range 25).map (fun k => getO sm (t - 12 + k))).all Option.isSome then
    oDiv
      (oAbs (sampleVarList
        ((((List.range 25).map (fun k => getO sm (t - 12 + k))).eraseIdx 12).filterMap id)))
      (some (((((List.range 25).map (fun k => getO sm (t - 12 + k))).eraseIdx 12).filterMap id).sum / 24))
  else none

/-- The `peak` helper of `flag_d06`: 1 when the second sample is a strict
local extremum of the first three, else 2 when samples 2 and 3 form a
two-hour plateau peak against samples 1 and 4, else 0.  Comparisons with a
NaN sample are false. -/
def peak (l : List (Option ℚ)) : ℚ :=
  match l with
  | x0 :: x1 :: x2 :: rest =>
    if (oLtB2 x0 x1 && oLtB2 x2 x1) || (oLtB2 x1 x0 && oLtB2 x1 x2) then 1
    else
      match rest with
      | x3 :: _ =>
        if (oLtB2 x0 x1 && oEqB x1 x2 && oLtB2 x3 x2) ||
            (oLtB2 x1 x0 && oEqB x1 x2 && oLtB2 x2 x3) then 2
        else 0
      | [] => 0
  | _ => 0

/-- One entry of `rolling(min_periods=3, window=4, center=True).apply(peak)`:
the window at label `i` covers rows `max(0, i-2) .. min(i+1, n-1)` and the
raw (NaN-carrying) values are handed to `peak` when at least 3 are valid. -/
def rawPeak (sm : List (Option ℚ)) (i : ℕ) : Option ℚ :=
  if 3 ≤ countValid ((List.range (min (i + 1) (sm.length - 1) + 1 - (i - 2))).map
      (fun k => getO sm (i - 2 + k))) then
    some (peak ((List.range (min (i + 1) (sm.length - 1) + 1 - (i - 2))).map
      (fun k => getO sm (i - 2 + k))))
  else none

/-- `criteria4[t]`: the rolling `peak` classification shifted back one
position (`shift(-1)`), so row `t` is classified from rows
`t-1, t, t+1, (t+2)`. -/
def criteria4 (sm : List (Option ℚ)) (t : ℕ) : Option ℚ :=
  if t + 1 < sm.length then rawPeak sm (t + 1) else none

/-- `spike_2h[t]`: the one-sample-lagged `criteria4` exceeds 1.1. -/
def spike2hB (sm : List (Option ℚ)) (t : ℕ) : Bool :=
  if 1 ≤ t then oGtB (criteria4 sm (t - 1)) (11 / 10) else false

/-- The abrupt-change disjunct of `spike`: `criteria1 > 1.15 or
criteria1 < 0.85`. -/
def abruptB (sm : List (Option ℚ)) (t : ℕ) : Bool :=
  oGtB (criteria1 sm t) (23 / 20) || oLtB (criteria1 sm t) (17 / 20)

/-- The `criteria2` band of `spike`: `0.8 < criteria2 < 1.2` (strict). -/
def c2okB (d2 : List (Option ℚ)) (t : ℕ) : Bool :=
  oGtB (criteria2 d2 t) (4 / 5) && oLtB (criteria2 d2 t) (6 / 5)

/-- `spike[t]` of `flag_d06`. -/
def spikeB (sm d2 : List (Option ℚ)) (t : ℕ) : Bool :=
  (abruptB sm t || spike2hB sm t) && c2okB d2 t &&
    oLtB (criteria3 sm t) 1 && oGtB (criteria4 sm t) 0

/-- The row mask of `flag_d06`:
`(spike > 0) | ((spike.shift(1) > 0) & (spike_2h > 0))`. -/
def mask_d06 (sm d2 : List (Option ℚ)) (t : ℕ) : Bool :=
  spikeB sm d2 t || (decide (1 ≤ t) && spikeB sm d2 (t - 1) && spike2hB sm t)

/-- `flag_d06`: spike detection, code 9.  The function dereferences
`df.deriv2`; when `apply_savgol` has not run the column is absent and the
attribute access raises (`none`). -/
def flag_d06 (df : Table) : Option Table :=
  match df.deriv2 with
  | none => none
  | some d2 =>
    some { df with qflag := addFlag 9 (mask_d06 df.soil_moisture d2) 0 df.qflag }

/-- `apply_savgol`: writes the smoothed first and second derivatives of
`soil_moisture` into the `deriv1` and `deriv2` columns. -/
def apply_savgol (df : Table) : Table :=
  { df with deriv1 := some (savgolD1 df.soil_moisture),
            deriv2 := some (savgolD2 df.soil_moisture) }

/-- The `flagit` pipeline: the nine active detectors in source order
(`flag_c03` runs with its default `hwsd=None`).  Note that the pipeline
never calls `apply_savgol`. -/
def flagit (df : Table) : Option Table :=
  flag_d06 (flag_d05 (flag_d04 (flag_d03 (flag_d02 (flag_d01
    (flag_c03 (flag_c02 (flag_c01 df)) none))))))

/-- The nine detectors invoked by `flagit`, as data. -/
inductive Detector where
  | c01 | c02 | c03 | d01 | d02 | d03 | d04 | d05 | d06
deriving DecidableEq

/-- Run one detector (the `flag_c03` call uses the pipeline default
`hwsd=None`).  Only `flag_d06` can fail. -/
def applyD (d : Detector) (df : Table) : Option Table :=
  match d with
  | .c01 => some (flag_c01 df)
  | .c02 => some (flag_c02 df)
  | .c03 => some (flag_c03 df none)
  | .d01 => some (flag_d01 df)
  | .d02 => some (flag_d02 df)
  | .d03 => some (flag_d03 df)
  | .d04 => some (flag_d04 df)
  | .d05 => some (flag_d05 df)
  | .d06 => flag_d06 df

/-- Total wrapper of `applyD` (the failing `flag_d06` leaves the table). -/
def applyT (d : Detector) (df : Table) : Table := (applyD d df).getD df

/-- Flag code written by each detector. -/
def codeOf : Detector → ℕ
  | .c01 => 1 | .c02 => 2 | .c03 => 3 | .d01 => 4 | .d02 => 5
  | .d03 => 6 | .d04 => 7 | .d05 => 8 | .d06 => 9

/-- Row mask of each detector, as a function of the non-qflag columns only
(false everywhere when the detector is skipped or fails). -/
def maskT (d : Detector) (df : Table) : ℕ → Bool :=
  match d with
  | .c01 => mask_c01 df
  | .c02 => mask_c02 df
  | .c03 => fun _ => false
  | .d01 => fun i => match df.soil_temperature with
    | none => false
    | some st => oLtB (getO st i) 0
  | .d02 => fun i => match df.air_temperature with
    | none => false
    | some at2 => oLtB (getO at2 i) 0
  | .d03 => fun i => match df.gldas_soil_temperature with
    | none => false
    | some gt2 => oLtB (getO gt2 i) 0
  | .d04 => fun i => match df.precipitation with
    | none => false
    | some p => mask_d04 df.soil_moisture p i
  | .d05 => fun i => match df.gldas_precipitation with
    | none => false
    | some gp => mask_d05 df.soil_moisture gp i
  | .d06 => fun i => match df.deriv2 with
    | none => false
    | some d2 => mask_d06 df.soil_moisture d2 i

/-- The source order of the detectors inside `flagit`. -/
def pipelineOrder : List Detector :=
  [.c01, .c02, .c03, .d01, .d02, .d03, .d04, .d05, .d06]

/-- Run a list of detectors left to right, stopping at a failure. -/
def runAll (l : List Detector) (df : Table) : Option Table :=
  l.foldlM (fun t d => applyD d t) df

/-- Run a list of detectors left to right with the total wrapper. -/
def runAllT (l : List Detector) (df : Table) : Table :=
  l.foldl (fun t d => applyT d t) df

theorem addFlag_length (c : ℕ) (m : ℕ → Bool) :
    ∀ (i : ℕ) (q : List (Finset ℕ)), (addFlag c m i q).length = q.length := by
  intro i q
  induction q generalizing i with
  | nil => rfl
  | cons s rest ih => simp [addFlag, ih]

theorem addFlag_getD_lt (c : ℕ) (m : ℕ → Bool) :
    ∀ (q : List (Finset ℕ)) (i t : ℕ), t < q.length →
      (addFlag c m i q).getD t ∅ =
        (if m (i + t) then insert c (q.getD t ∅) else q.getD t ∅) := by
  intro q
  induction q with
  | nil => intro i t ht; simp at ht
  | cons s rest ih =>
    intro i t ht
    cases t with
    | zero => simp [addFlag]
    | succ t =>
      have h2 : t < rest.length := by simpa using ht
      have h3 := ih (i + 1) t h2
      have he : i + 1 + t = i + (t + 1) := by omega
      rw [he] at h3
      simpa only [addFlag, List.getD_cons_succ] using h3

theorem addFlag_getD_ge (c : ℕ) (m : ℕ → Bool) (q : List (Finset ℕ)) (i t : ℕ)
    (ht : q.length ≤ t) : (addFlag c m i q).getD t ∅ = ∅ := by
  apply List.getD_eq_default
  rw [addFlag_length]
  exact ht

theorem mem_addFlag (c : ℕ) (m : ℕ → Bool) (q : List (Finset ℕ)) (i t : ℕ)
    (ht : t < q.length) (x : ℕ) :
    x ∈ (addFlag c m i q).getD t ∅ ↔ x ∈ q.getD t ∅ ∨ (x = c ∧ m (i + t) = true) := by
  rw [addFlag_getD_lt c m q i t ht]
  by_cases hm : m (i + t)
  · rw [if_pos hm, Finset.mem_insert]
    simp [hm]
    tauto
  · simp [hm]

theorem subset_addFlag (c : ℕ) (m : ℕ → Bool) (q : List (Finset ℕ)) (i t : ℕ) :
    q.getD t ∅ ⊆ (addFlag c m i q).getD t ∅ := by
  by_cases ht : t < q.length
  · rw [addFlag_getD_lt c m q i t ht]
    by_cases hm : m (i + t) <;> simp [hm, Finset.subset_insert]
  · have h1 : q.getD t ∅ = ∅ := List.getD_eq_default q ∅ (by omega)
    rw [h1]
    exact Finset.empty_subset _

theorem addFlag_false (c : ℕ) (m : ℕ → Bool) (hm : ∀ i, m i = false) :
    ∀ (i : ℕ) (q : List (Finset ℕ)), addFlag c m i q = q := by
  intro i q
  induction q generalizing i with
  | nil => rfl
  | cons s rest ih => simp [addFlag, hm, ih]

theorem addFlag_comm (c1 c2 : ℕ) (m1 m2 : ℕ → Bool) :
    ∀ (q : List (Finset ℕ)) (i : ℕ),
      addFlag c1 m1 i (addFlag c2 m2 i q) = addFlag c2 m2 i (addFlag c1 m1 i q) := by
  intro q
  induction q with
  | nil => intro i; rfl
  | cons s rest ih =>
    intro i
    simp only [addFlag]
    refine congrArg₂ _ ?_ (ih (i + 1))
    by_cases h1 : m1 i <;> by_cases h2 : m2 i <;> simp [h1, h2, Finset.Insert.comm]

theorem addFlag_idem (c : ℕ) (m : ℕ → Bool) :
    ∀ (q : List (Finset ℕ)) (i : ℕ),
      addFlag c m i (addFlag c m i q) = addFlag c m i q := by
  intro q
  induction q with
  | nil => intro i; rfl
  | cons s rest ih =>
    intro i
    simp only [addFlag]
    refine congrArg₂ _ ?_ (ih (i + 1))
    by_cases h : m i <;> simp [h, Finset.insert_idem]

theorem applyT_char (d : Detector) (df : Table) :
    applyT d df = { df with qflag := addFlag (codeOf d) (maskT d df) 0 df.qflag } := by
  cases d
  case c01 => rfl
  case c02 => rfl
  case c03 =>
    have hm : ∀ i, maskT Detector.c03 df i = false := fun i => rfl
    rw [addFlag_false _ _ hm]
    rfl
  case d01 =>
    cases h : df.soil_temperature with
    | none =>
      have hm : ∀ i, maskT Detector.d01 df i = false := by intro i; simp [maskT, h]
      rw [addFlag_false _ _ hm]
      show (some (flag_d01 df)).getD df = _
      rw [Option.getD_some]
      simp only [flag_d01, h]
      rw [← h]
    | some st =>
      show (some (flag_d01 df)).getD df = _
      rw [Option.getD_some]
      simp only [flag_d01, h, maskT, codeOf]
  case d02 =>
    cases h : df.air_temperature with
    | none =>
      have hm : ∀ i, maskT Detector.d02 df i = false := by intro i; simp [maskT, h]
      rw [addFlag_false _ _ hm]
      show (some (flag_d02 df)).getD df = _
      rw [Option.getD_some]
      simp only [flag_d02, h]
      rw [← h]
    | some at2 =>
      show (some (flag_d02 df)).getD df = _
      rw [Option.getD_some]
      simp only [flag_d02, h, maskT, codeOf]
  case d03 =>
    cases h : df.gldas_soil_temperature with
    | none =>
      have hm : ∀ i, maskT Detector.d03 df i = false := by intro i; simp [maskT, h]
      rw [addFlag_false _ _ hm]
      show (some (flag_d03 df)).getD df = _
      rw [Option.getD_some]
      simp only [flag_d03, h]
      rw [← h]
    | some gt2 =>
      show (some (flag_d03 df)).getD df = _
      rw [Option.getD_some]
      simp only [flag_d03, h, maskT, codeOf]
  case d04 =>
    cases h : df.precipitation with
    | none =>
      have hm : ∀ i, maskT Detector.d04 df i = false := by intro i; simp [maskT, h]
      rw [addFlag_false _ _ hm]
      show (some (flag_d04 df)).getD df = _
      rw [Option.getD_some]
      simp only [flag_d04, h]
      rw [← h]
    | some p =>
      show (some (flag_d04 df)).getD df = _
      rw [Option.getD_some]
      simp only [flag_d04, h, maskT, codeOf]
  case d05 =>
    cases h : df.gldas_precipitation with
    | none =>
      have hm : ∀ i, maskT Detector.d05 df i = false := by intro i; simp [maskT, h]
      rw [addFlag_false _ _ hm]
      show (some (flag_d05 df)).getD df = _
      rw [Option.getD_some]
      simp only [flag_d05, h]
      rw [← h]
    | some gp =>
      show (some (flag_d05 df)).getD df = _
      rw [Option.getD_some]
      simp only [flag_d05, h, maskT, codeOf]
  case d06 =>
    cases h : df.deriv2 with
    | none =>
      have hm : ∀ i, maskT Detector.d06 df i = false := by intro i; simp [maskT, h]
      rw [addFlag_false _ _ hm]
      show (flag_d06 df).getD df = _
      simp only [flag_d06, h, Option.getD_none]
      rw [← h]
    | some d2 =>
      show (flag_d06 df).getD df = _
      simp only [flag_d06, h, Option.getD_some, maskT, codeOf]

theorem maskT_update (d : Detector) (df : Table) (q2 : List (Finset ℕ)) :
    maskT d { df with qflag := q2 } = maskT d df := by
  cases d <;> rfl

theorem applyT_comm (d1 d2 : Detector) (df : Table) :
    applyT d1 (applyT d2 df) = applyT d2 (applyT d1 df) := by
  rw [applyT_char d2 df, applyT_char d1 df, applyT_char, applyT_char,
    maskT_update, maskT_update]
  exact congrArg (fun q => { df with qflag := q })
    (addFlag_comm (codeOf d1) (codeOf d2) (maskT d1 df) (maskT d2 df) df.qflag 0)

theorem applyT_idem (d : Detector) (df : Table) :
    applyT d (applyT d df) = applyT d df := by
  rw [applyT_char d df, applyT_char, maskT_update]
  exact congrArg (fun q => { df with qflag := q })
    (addFlag_idem (codeOf d) (maskT d df) df.qflag 0)

theorem applyT_deriv2 (d : Detector) (df : Table) : (applyT d df).deriv2 = df.deriv2 := by
  rw [applyT_char]

theorem applyD_some (d : Detector) (df : Table) (h : df.deriv2.isSome) :
    applyD d df = some (applyT d df) := by
  cases d
  case d06 =>
    cases hh : df.deriv2 with
    | none => rw [hh] at h; simp at h
    | some d2 => simp [applyD, applyT, flag_d06, hh]
  all_goals rfl

theorem runAll_eq (l : List Detector) (df : Table) (h : df.deriv2.isSome) :
    runAll l df = some (runAllT l df) := by
  induction l generalizing df with
  | nil => rfl
  | cons d rest ih =>
    show (applyD d df).bind (fun t => runAll rest t) = _
    rw [applyD_some d df h, Option.some_bind]
    have h2 : (applyT d df).deriv2.isSome := by rw [applyT_deriv2]; exact h
    exact ih (applyT d df) h2

theorem runAllT_perm (l1 l2 : List Detector) (p : l1.Perm l2) :
    ∀ df : Table, runAllT l1 df = runAllT l2 df := by
  induction p with
  | nil => intro df; rfl
  | cons x p ih =>
    intro df
    show runAllT _ (applyT x df) = runAllT _ (applyT x df)
    exact ih (applyT x df)
  | swap x y l =>
    intro df
    show runAllT l (applyT x (applyT y df)) = runAllT l (applyT y (applyT x df))
    exact congrArg (runAllT l) (applyT_comm x y df)
  | trans p q ih1 ih2 => intro df; exact (ih1 df).trans (ih2 df)

theorem oGtB_eq_true (x : Option ℚ) (c : ℚ) :
    oGtB x c = true ↔ ∃ a, x = some a ∧ c < a := by
  cases x <;> simp [oGtB]

theorem oLtB_eq_true (x : Option ℚ) (c : ℚ) :
    oLtB x c = true ↔ ∃ a, x = some a ∧ a < c := by
  cases x <;> simp [oLtB]

theorem gt2std_eq_true (x v : Option ℚ) :
    gt2std x v = true ↔ ∃ r w, x = some r ∧ v = some w ∧ 0 < r ∧ 4 * w < r ^ 2 := by
  cases x <;> cases v <;> simp [gt2std]

theorem diffK_eq_some (k : ℕ) (sm : List (Option ℚ)) (t : ℕ) (d : ℚ) :
    diffK k sm t = some d ↔
      k ≤ t ∧ ∃ a b, getO sm t = some a ∧ getO sm (t - k) = some b ∧ d = a - b := by
  unfold diffK
  by_cases hk : k ≤ t
  · cases ha : getO sm t <;> cases hb : getO sm (t - k) <;> simp [hk, oSub, eq_comm]
  · simp [hk]

/-- The firing condition of claim C1 for flag 7, written out per the spec:
`rise1h[t] > 0` (`rise1h[t] = sm[t] - sm[t-1]`), `rise24h[t] > std_x2[t]`
(`rise24h[t] = sm[t] - sm[t-24]`, `std_x2[t]` twice the standard deviation of
the trailing 25-window — stated via the variance `v` as
`0 < rise24h ∧ 4·v < rise24h²`), and the instantaneous precipitation of the
hour below 0.2; every operand must be an actual (non-missing) value. -/
def d04Fires (sm p : List (Option ℚ)) (t : ℕ) : Prop :=
  ∃ a b c v r, getO sm t = some a ∧ 1 ≤ t ∧ getO sm (t - 1) = some b ∧
    24 ≤ t ∧ getO sm (t - 24) = some c ∧ rollVar25 sm t = some v ∧
    getO p t = some r ∧ b < a ∧ 0 < a - c ∧ 4 * v < (a - c) ^ 2 ∧ r < 1 / 5

theorem mask_d04_iff (sm p : List (Option ℚ)) (t : ℕ) :
    mask_d04 sm p t = true ↔ d04Fires sm p t := by
  unfold mask_d04 d04Fires
  simp only [Bool.and_eq_true, oGtB_eq_true, oLtB_eq_true, gt2std_eq_true]
  constructor
  · rintro ⟨⟨⟨d1, hd1, hd1pos⟩, ⟨r24, v, hr24, hv, hrpos, hrsq⟩⟩, ⟨pr, hpr, hprlt⟩⟩
    rw [diffK_eq_some] at hd1 hr24
    obtain ⟨ht1, a, b, ha, hb, rfl⟩ := hd1
    obtain ⟨ht24, a2, c, ha2, hc, rfl⟩ := hr24
    rw [ha] at ha2
    obtain rfl := Option.some_inj.mp ha2
    exact ⟨a, b, c, v, pr, ha, ht1, hb, ht24, hc, hv, hpr, by linarith, hrpos, hrsq, hprlt⟩
  · rintro ⟨a, b, c, v, r, ha, ht1, hb, ht24, hc, hv, hpr, hba, hac, hsq, hr5⟩
    refine ⟨⟨⟨a - b, ?_, by linarith⟩, ⟨a - c, v, ?_, hv, hac, hsq⟩⟩, ⟨r, hpr, hr5⟩⟩
    · rw [diffK_eq_some]; exact ⟨ht1, a, b, ha, hb, rfl⟩
    · rw [diffK_eq_some]; exact ⟨ht24, a, c, ha, hc, rfl⟩

/-- Claim C1: with the `precipitation` column present, `flag_d04` adds flag 7
at exactly the rows satisfying `rise1h > 0`, `rise24h > std_x2` and
instantaneous `precipitation < 0.2` (see `d04Fires`; the standard-deviation
comparison is stated through the window variance to stay inside ℚ); with the
column absent it is the identity, so flag 7 is never added. -/
theorem flag_d04_flag7 (df : Table) (t : ℕ) (ht : t < df.qflag.length) :
    (∀ p, df.precipitation = some p →
      (7 ∈ qflagAt (flag_d04 df) t ↔ 7 ∈ qflagAt df t ∨ d04Fires df.soil_moisture p t)) ∧
    (df.precipitation = none → flag_d04 df = df) := by
  constructor
  · intro p hp
    have h1 : flag_d04 df =
        { df with qflag := addFlag 7 (mask_d04 df.soil_moisture p) 0 df.qflag } := by
      simp only [flag_d04, hp]
    rw [h1]
    show 7 ∈ (addFlag 7 (mask_d04 df.soil_moisture p) 0 df.qflag).getD t ∅ ↔ _
    rw [mem_addFlag _ _ _ _ _ ht, Nat.zero_add]
    simp [mask_d04_iff, qflagAt]
  · intro hp
    simp only [flag_d04, hp]

def tbl1p : List (Option ℚ) := List.replicate 25 (some 0)

def tbl1sm : List (Option ℚ) := List.replicate 24 (some 10) ++ [some 20]

def tbl1 : Table :=
  { soil_moisture := tbl1sm, precipitation := some tbl1p, qflag := List.replicate 25 ∅ }

/-- Witness for C1: a 25-row table whose soil moisture jumps from 10 to 20
at row 24 with zero precipitation is flagged 7 at row 24. -/
theorem flag_d04_flag7_wit : 7 ∈ qflagAt (flag_d04 tbl1) 24 :=
  ((flag_d04_flag7 tbl1 24 (by decide)).1 tbl1p rfl).mpr
    (Or.inr ⟨20, 10, 10, 4, 0, by with_unfolding_all decide, by decide,
      by with_unfolding_all decide, by decide, by with_unfolding_all decide,
      by with_unfolding_all decide, by with_unfolding_all decide,
      by with_unfolding_all decide, by with_unfolding_all decide,
      by with_unfolding_all decide, by with_unfolding_all decide⟩)

/-- Claim C10: a saturation threshold of `0.0` is treated exactly like an
absent threshold (`if not hwsd` is true for both `None` and `0.0`):
`flag_c03` returns the table unchanged and adds no flag 3 anywhere; only a
nonzero non-`None` threshold activates the rule (then flag 3 is added at
exactly the rows with `soil_moisture > hwsd`). -/
theorem flag_c03_zero (df : Table) :
    flag_c03 df (some 0) = df ∧ flag_c03 df none = df ∧
    ∀ h : ℚ, h ≠ 0 → ∀ t, t < df.qflag.length →
      (3 ∈ qflagAt (flag_c03 df (some h)) t ↔
        3 ∈ qflagAt df t ∨ ∃ a, getO df.soil_moisture t = some a ∧ h < a) := by
  refine ⟨by simp [flag_c03], rfl, ?_⟩
  intro h hh t ht
  have h1 : flag_c03 df (some h) =
      { df with qflag := addFlag 3 (fun i => oGtB (getO df.soil_moisture i) h) 0 df.qflag } := by
    simp only [flag_c03, if_neg hh]
  rw [h1]
  show 3 ∈ (addFlag 3 (fun i => oGtB (getO df.soil_moisture i) h) 0 df.qflag).getD t ∅ ↔ _
  rw [mem_addFlag _ _ _ _ _ ht, Nat.zero_add]
  simp [oGtB_eq_true, qflagAt]

def w10tbl : Table := { soil_moisture := [some 50], qflag := [∅] }

/-- Witness for C10: with a nonzero threshold the rule does fire. -/
theorem flag_c03_zero_wit : 3 ∈ qflagAt (flag_c03 w10tbl (some 1)) 0 :=
  ((flag_c03_zero w10tbl).2.2 1 one_ne_zero 0 (by decide)).mpr
    (Or.inr ⟨50, by with_unfolding_all decide, by with_unfolding_all decide⟩)

/-- The spec reading of the trailing window of `std_x2`: the valid values at
rows `i` with `i ≤ t < i + 25` (window length 25 ending at `t`), in row
order. -/
def specWindowVals (sm : List (Option ℚ)) (t : ℕ) : List ℚ :=
  (List.range (t + 1)).filterMap (fun i => if t < i + 25 then getO sm i else none)

theorem trailVals_eq_spec (sm : List (Option ℚ)) (t : ℕ) :
    (trailWindow sm t).filterMap id = specWindowVals sm t := by
  unfold trailWindow specWindowVals
  rw [List.filterMap_map]
  by_cases ht : t ≤ 23
  · have hmin : min (t + 1) 25 = t + 1 := by omega
    rw [hmin]
    apply List.filterMap_congr
    intro k hk
    have hk2 : k < t + 1 := List.mem_range.mp hk
    have h24 : t - 24 = 0 := by omega
    have hcond : t < k + 25 := by omega
    simp [h24, hcond]
  · have hmin : min (t + 1) 25 = 25 := by omega
    have hsplit : t + 1 = (t - 24) + 25 := by omega
    rw [hmin, hsplit, List.range_add, List.filterMap_append]
    have h1 : (List.range (t - 24)).filterMap
        (fun i => if t < i + 25 then getO sm i else none) = [] := by
      rw [List.filterMap_eq_nil_iff]
      intro i hi
      have hi2 : i < t - 24 := List.mem_range.mp hi
      rw [if_neg (by omega)]
    rw [h1, List.nil_append, List.filterMap_map]
    apply List.filterMap_congr
    intro k hk
    have hk2 : k < 25 := List.mem_range.mp hk
    have hcond : t < (t - 24 + k) + 25 := by omega
    simp [Function.comp, hcond]

/-- Claim C7 (amended): `std_x2[t]` is the (doubled) standard deviation of the
valid values of the trailing 25-window ending at `t` — stated through the
sample variance `rollVar25` (its square over 4), which carries exactly the
same presence — and it is a present value iff the window holds at least TWO
valid samples (shorter windows near the start still produce a value when they
have two).  With exactly one valid sample (the claim said a minimum of one
suffices) the ddof-1 variance, hence the standard deviation, is missing. -/
theorem rollVar25_presence (sm : List (Option ℚ)) (t : ℕ) :
    rollVar25 sm t = sampleVarList (specWindowVals sm t) ∧
    ((rollVar25 sm t).isSome ↔ 2 ≤ (specWindowVals sm t).length) := by
  have h1 : rollVar25 sm t = sampleVarList (specWindowVals sm t) := by
    unfold rollVar25
    rw [trailVals_eq_spec]
  refine ⟨h1, ?_⟩
  rw [h1]
  unfold sampleVarList
  by_cases h2 : 2 ≤ (specWindowVals sm t).length <;> simp [h2]

/-- Claim C7 counterexample: at row 0 of the two-row series `[10, 20]` the
trailing window holds exactly one valid sample — the claimed minimum — yet
`std_x2[0]` is missing (pandas ddof-1 `std` of a single observation is NaN),
refuting `minimum 1 valid sample required ... still produce a value`. -/
theorem rollVar25_min1_cx :
    countValid (trailWindow [some 10, some 20] 0) = 1 ∧
      rollVar25 [some 10, some 20] 0 = none := by
  with_unfolding_all decide

/-- Claim C3 counterexample: on the series `[1, 2, 4]` at `t = 1` (previous
value `1`, next value `4`, both present, previous nonzero) the code computes
`criteria1[1] = round(sm[1]/sm[0], 3) = 2`, not the claimed
`round(sm[2]/sm[0], 3) = 4`: the lag-1 pairing of
`shift(-1).div(sm).shift(1)` divides the current hour by the previous hour,
not the next hour by the previous hour. -/
theorem criteria1_claim_cx :
    criteria1 [some 1, some 2, some 4] 1 = some 2 ∧
      round3 ((4 : ℚ) / 1) = 4 ∧
      criteria1 [some 1, some 2, some 4] 1 ≠ some (round3 ((4 : ℚ) / 1)) := by
  with_unfolding_all decide

/-- Claim C3 (amended): for `t ≥ 1` with `sm[t]` and `sm[t-1]` present and
`sm[t-1]` nonzero, `criteria1[t]` equals `sm[t] / sm[t-1]` (the current hour
over the previous hour, not the next over the previous) rounded to 3
decimals, and the abrupt-change disjunct fires exactly when the rounded
ratio is `> 1.15` or `< 0.85`. -/
theorem criteria1_amended (sm : List (Option ℚ)) (t : ℕ) (a b : ℚ)
    (h1 : 1 ≤ t) (ha : getO sm t = some a) (hb : getO sm (t - 1) = some b)
    (hb0 : b ≠ 0) :
    criteria1 sm t = some (round3 (a / b)) ∧
      (abruptB sm t = true ↔ (23 / 20 < round3 (a / b) ∨ round3 (a / b) < 17 / 20)) := by
  have hc : criteria1 sm t = some (round3 (a / b)) := by
    simp [criteria1, h1, ha, hb, oDiv, hb0]
  refine ⟨hc, ?_⟩
  rw [abruptB, hc]
  simp [oGtB, oLtB]

/-- Witness for the amended C3 at a concrete row. -/
theorem criteria1_amended_wit :
    criteria1 [some 1, some 2] 1 = some (round3 ((2 : ℚ) / 1)) :=
  (criteria1_amended [some 1, some 2] 1 2 1 (by decide)
    (by with_unfolding_all decide) (by with_unfolding_all decide)
    (by with_unfolding_all decide)).1

/-- Claim C4 counterexample: with `deriv2 = [5, 0, 4]` at `t = 1` (both
neighbours present and nonzero) the code computes
`criteria2[1] = round(|deriv2[0]/deriv2[2]|, 3) = 1.25`, not the claimed
`round(|deriv2[2]/deriv2[0]|, 3) = 0.8` — the ratio is previous over next,
the reciprocal of the claim — and the band test is the strict
`0.8 < criteria2 < 1.2`, so it fails here although the claimed value `0.8`
lies in the claimed closed interval `[0.8, 1.2]`. -/
theorem criteria2_claim_cx :
    criteria2 [some 5, some 0, some 4] 1 = some (5 / 4) ∧
      round3 |(4 : ℚ) / 5| = 4 / 5 ∧
      criteria2 [some 5, some 0, some 4] 1 ≠ some (round3 |(4 : ℚ) / 5|) ∧
      c2okB [some 5, some 0, some 4] 1 = false := by
  with_unfolding_all decide

/-- Claim C4 (amended): for `t ≥ 1` with `deriv2[t-1]` and `deriv2[t+1]`
present and the divisor `deriv2[t+1]` nonzero, `criteria2[t]` equals
`|deriv2[t-1] / deriv2[t+1]|` rounded to 3 decimals, and the symmetry test
passes exactly when this value lies strictly between 0.8 and 1.2. -/
theorem criteria2_amended (d2 : List (Option ℚ)) (t : ℕ) (a b : ℚ)
    (h1 : 1 ≤ t) (ha : getO d2 (t - 1) = some a) (hb : getO d2 (t + 1) = some b)
    (hb0 : b ≠ 0) :
    criteria2 d2 t = some (round3 |a / b|) ∧
      (c2okB d2 t = true ↔ (4 / 5 < round3 |a / b| ∧ round3 |a / b| < 6 / 5)) := by
  have hc : criteria2 d2 t = some (round3 |a / b|) := by
    simp [criteria2, h1, ha, hb, oDiv, oAbs, hb0]
  refine ⟨hc, ?_⟩
  rw [c2okB, hc]
  simp [oGtB, oLtB]

/-- Witness for the amended C4 at a concrete row. -/
theorem criteria2_amended_wit :
    criteria2 [some 5, some 0, some 4] 1 = some (round3 |(5 : ℚ) / 4|) :=
  (criteria2_amended [some 5, some 0, some 4] 1 5 4 (by decide)
    (by with_unfolding_all decide) (by with_unfolding_all decide)
    (by with_unfolding_all decide)).1

/-- A well-formed input table per the external interface: required
`soil_moisture` and `qflag` columns only. -/
def c5tbl : Table := { soil_moisture := [some 10, some 11, some 12], qflag := [∅, ∅, ∅] }

/-- Claim C5 (code-bug evidence): on a table with the required columns and no
optional columns, the pipeline `flagit` fails — `flag_d06` dereferences the
`deriv2` column, which `flagit` never creates because it does not call
`apply_savgol` (an `AttributeError` at runtime) — while the same pipeline
completes once the derivative columns exist. -/
theorem flagit_missing_deriv :
    flagit c5tbl = none ∧ (flagit (apply_savgol c5tbl)).isSome = true := by
  with_unfolding_all decide

theorem peak_values (l : List (Option ℚ)) : peak l = 0 ∨ peak l = 1 ∨ peak l = 2 := by
  rcases l with _ | ⟨x0, l⟩
  · exact Or.inl rfl
  rcases l with _ | ⟨x1, l⟩
  · exact Or.inl rfl
  rcases l with _ | ⟨x2, l⟩
  · exact Or.inl rfl
  by_cases h1 : (oLtB2 x0 x1 && oLtB2 x2 x1 || oLtB2 x1 x0 && oLtB2 x1 x2) = true
  · right
    left
    simp [peak, h1]
  · rcases l with _ | ⟨x3, l⟩
    · left
      simp [peak, h1]
    · by_cases h2 : (oLtB2 x0 x1 && oEqB x1 x2 && oLtB2 x3 x2 ||
          oLtB2 x1 x0 && oEqB x1 x2 && oLtB2 x2 x3) = true
      · right
        right
        simp [peak, h1, h2]
      · left
        simp [peak, h1, h2]

theorem rawPeak_values (sm : List (Option ℚ)) (i : ℕ) :
    rawPeak sm i = none ∨ rawPeak sm i = some 0 ∨ rawPeak sm i = some 1 ∨
      rawPeak sm i = some 2 := by
  unfold rawPeak
  split
  · rcases peak_values ((List.range (min (i + 1) (sm.length - 1) + 1 - (i - 2))).map
      (fun k => getO sm (i - 2 + k))) with h | h | h <;> rw [h] <;> tauto
  · exact Or.inl rfl

theorem criteria4_values (sm : List (Option ℚ)) (t : ℕ) :
    criteria4 sm t = none ∨ criteria4 sm t = some 0 ∨ criteria4 sm t = some 1 ∨
      criteria4 sm t = some 2 := by
  unfold criteria4
  split
  · exact rawPeak_values sm (t + 1)
  · exact Or.inl rfl

theorem spike2hB_iff (sm : List (Option ℚ)) (t : ℕ) :
    spike2hB sm t = true ↔ (1 ≤ t ∧ criteria4 sm (t - 1) = some 2) := by
  unfold spike2hB
  by_cases h1 : 1 ≤ t
  · rw [if_pos h1]
    simp only [h1, true_and]
    rcases criteria4_values sm (t - 1) with h | h | h | h <;> rw [h] <;> simp [oGtB] <;>
      norm_num
  · rw [if_neg h1]
    simp [h1]

theorem criteria3_none (sm : List (Option ℚ)) (t : ℕ)
    (h : ¬(12 ≤ t ∧ t + 12 < sm.length)) : criteria3 sm t = none := by
  unfold criteria3
  rw [if_neg]
  intro hc
  exact h ⟨hc.1, hc.2.1⟩

theorem spikeB_false_edge (sm d2 : List (Option ℚ)) (t : ℕ)
    (h : t < 12 ∨ sm.length ≤ t + 12) : spikeB sm d2 t = false := by
  have h3 : criteria3 sm t = none := criteria3_none sm t (by omega)
  unfold spikeB
  rw [h3]
  simp [oLtB]

theorem mask_d06_false_edge (sm d2 : List (Option ℚ)) (t : ℕ)
    (h : t < 12 ∨ sm.length ≤ t + 11) : mask_d06 sm d2 t = false := by
  unfold mask_d06
  have h1 : spikeB sm d2 t = false := spikeB_false_edge sm d2 t (by omega)
  by_cases h0 : 1 ≤ t
  · have h2 : spikeB sm d2 (t - 1) = false := spikeB_false_edge sm d2 (t - 1) (by omega)
    rw [h1, h2]
    simp
  · rw [h1]
    have hd : decide (1 ≤ t) = false := by simp [h0]
    rw [hd]
    simp

/-- Claim C6 (amended): the spike flag is never added in the first 12 rows or
in the LAST 11 rows (`criteria3` needs a complete centred 25-window there, and
the two-hour disjunct needs a spike one row earlier, still inside the edge
zone).  The 12th row from the end, however, is not protected: the two-hour
trailing-attribution disjunct can place flag 9 there (see the
counterexample). -/
theorem flag_d06_edge_amended (df : Table) (d2 : List (Option ℚ))
    (hd : df.deriv2 = some d2) (dfr : Table) (hr : flag_d06 df = some dfr) (t : ℕ)
    (hedge : t < 12 ∨ df.soil_moisture.length ≤ t + 11) :
    qflagAt dfr t = qflagAt df t := by
  simp only [flag_d06, hd] at hr
  obtain rfl := Option.some_inj.mp hr
  show (addFlag 9 (mask_d06 df.soil_moisture d2) 0 df.qflag).getD t ∅ = df.qflag.getD t ∅
  by_cases ht : t < df.qflag.length
  · rw [addFlag_getD_lt _ _ _ _ _ ht, Nat.zero_add,
      mask_d06_false_edge df.soil_moisture d2 t hedge]
    simp
  · rw [addFlag_getD_ge _ _ _ _ _ (by omega),
      List.getD_eq_default df.qflag ∅ (by omega)]

/-- A 25-row series with a two-hour plateau spike at rows 12 and 13:
baseline 10, elevated value 12 at rows 12 and 13. -/
def exSM : List (Option ℚ) :=
  List.replicate 12 (some 10) ++ [some 12, some 12] ++ List.replicate 11 (some 10)

def spikeTbl : Table :=
  { soil_moisture := exSM, deriv2 := some (savgolD2 exSM),
    qflag := List.replicate 25 ∅ }

def spikeRes : Table :=
  { spikeTbl with
    qflag := addFlag 9 (mask_d06 spikeTbl.soil_moisture (savgolD2 exSM)) 0 spikeTbl.qflag }

theorem flag_d06_spikeTbl : flag_d06 spikeTbl = some spikeRes := rfl

set_option maxRecDepth 40000 in
/-- Claim C6 counterexample: the series has 25 rows, so row 13 is among the
last 12 rows (`25 - 12 = 13`); the spike detector starts from empty qflags
and adds flag 9 at row 13, through the two-hour disjunct
(`spike[12] ∧ spike_2h[13]`).  This refutes `never adds flag 9 at any of the
first 12 or last 12 timestamps`. -/
theorem flag_d06_edge_cx :
    exSM.length = 25 ∧ flag_d06 spikeTbl = some spikeRes ∧
      9 ∉ qflagAt spikeTbl 13 ∧ 9 ∈ qflagAt spikeRes 13 := by
  refine ⟨by decide, flag_d06_spikeTbl, by decide, ?_⟩
  show 9 ∈ (addFlag 9 (mask_d06 spikeTbl.soil_moisture (savgolD2 exSM)) 0
    spikeTbl.qflag).getD 13 ∅
  rw [addFlag_getD_lt _ _ _ _ _ (by decide), Nat.zero_add]
  have hm : mask_d06 spikeTbl.soil_moisture (savgolD2 exSM) 13 = true := by
    with_unfolding_all decide
  rw [hm]
  exact Finset.mem_insert_self 9 _

/-- Witness for the amended C6: inside the protected edge zone (row 0) the
qflag set is untouched. -/
theorem flag_d06_edge_amended_wit : qflagAt spikeRes 0 = qflagAt spikeTbl 0 :=
  flag_d06_edge_amended spikeTbl (savgolD2 exSM) rfl spikeRes rfl 0 (Or.inl (by decide))

/-- `spike_2h[t]` as the claim states it: the one-sample-lagged `criteria4`
equals 2 (the only value exceeding 1.1 that `criteria4` can take). -/
def spike2hP (sm : List (Option ℚ)) (t : ℕ) : Prop :=
  1 ≤ t ∧ criteria4 sm (t - 1) = some 2

theorem spike2hB_iff2 (sm : List (Option ℚ)) (t : ℕ) :
    spike2hB sm t = true ↔ spike2hP sm t := by
  unfold spike2hP
  exact spike2hB_iff sm t

/-- `spike[t]` as the claim states it:
`((criteria1 > 1.15 ∨ criteria1 < 0.85) ∨ spike_2h) ∧ (0.8 < criteria2 < 1.2)
∧ (criteria3 < 1) ∧ (criteria4 > 0)`, every comparison requiring a present
value. -/
def spikeP (sm d2 : List (Option ℚ)) (t : ℕ) : Prop :=
  (((∃ q, criteria1 sm t = some q ∧ 23 / 20 < q) ∨
      (∃ q, criteria1 sm t = some q ∧ q < 17 / 20)) ∨ spike2hP sm t) ∧
  (∃ q, criteria2 d2 t = some q ∧ 4 / 5 < q ∧ q < 6 / 5) ∧
  (∃ q, criteria3 sm t = some q ∧ q < 1) ∧
  (∃ q, criteria4 sm t = some q ∧ 0 < q)

/-- The claimed firing condition of the spike flag at `t`:
`spike[t] ∨ (spike[t-1] ∧ spike_2h[t])`. -/
def d06Fires (sm d2 : List (Option ℚ)) (t : ℕ) : Prop :=
  spikeP sm d2 t ∨ (1 ≤ t ∧ spikeP sm d2 (t - 1) ∧ spike2hP sm t)

theorem spikeB_iff (sm d2 : List (Option ℚ)) (t : ℕ) :
    spikeB sm d2 t = true ↔ spikeP sm d2 t := by
  unfold spikeB spikeP abruptB c2okB
  simp only [Bool.and_eq_true, Bool.or_eq_true, spike2hB_iff2, oGtB_eq_true, oLtB_eq_true]
  constructor
  · rintro ⟨⟨⟨h1, ⟨q2, hq2, hq2lo⟩, ⟨q2b, hq2b, hq2hi⟩⟩, h3⟩, h4⟩
    rw [hq2] at hq2b
    obtain rfl := Option.some_inj.mp hq2b
    exact ⟨h1, ⟨q2, hq2, hq2lo, hq2hi⟩, h3, h4⟩
  · rintro ⟨h1, ⟨q2, hq2, hq2lo, hq2hi⟩, h3, h4⟩
    exact ⟨⟨⟨h1, ⟨q2, hq2, hq2lo⟩, ⟨q2, hq2, hq2hi⟩⟩, h3⟩, h4⟩

theorem mask_d06_iff (sm d2 : List (Option ℚ)) (t : ℕ) :
    mask_d06 sm d2 t = true ↔ d06Fires sm d2 t := by
  unfold mask_d06 d06Fires
  simp only [Bool.or_eq_true, Bool.and_eq_true, spikeB_iff, spike2hB_iff2,
    decide_eq_true_eq]
  constructor
  · rintro (h | ⟨⟨h1, h2⟩, h3⟩)
    · exact Or.inl h
    · exact Or.inr ⟨h1, h2, h3⟩
  · rintro (h | ⟨h1, h2, h3⟩)
    · exact Or.inl h
    · exact Or.inr ⟨⟨h1, h2⟩, h3⟩

/-- Claim C2: with the derivative columns in place, `flag_d06` adds flag 9 at
exactly the rows satisfying `spike[t] ∨ (spike[t-1] ∧ spike_2h[t])`, with
`spike` the four-criteria conjunction and `spike_2h` the lagged
`criteria4 > 1.1` test, i.e. `criteria4[t-1] = 2` (see `d06Fires`,
`spikeP`, `spike2hP`). -/
theorem flag_d06_flag9 (df : Table) (d2 : List (Option ℚ)) (hd : df.deriv2 = some d2)
    (dfr : Table) (hr : flag_d06 df = some dfr) (t : ℕ) (ht : t < df.qflag.length) :
    9 ∈ qflagAt dfr t ↔ 9 ∈ qflagAt df t ∨ d06Fires df.soil_moisture d2 t := by
  simp only [flag_d06, hd] at hr
  obtain rfl := Option.some_inj.mp hr
  show 9 ∈ (addFlag 9 (mask_d06 df.soil_moisture d2) 0 df.qflag).getD t ∅ ↔ _
  rw [mem_addFlag _ _ _ _ _ ht, Nat.zero_add]
  simp [mask_d06_iff, qflagAt]

set_option maxRecDepth 40000 in
/-- Witness for C2: the two-hour plateau series is flagged at row 12, where
all four criteria hold (`criteria1 = 1.2`, `criteria2 = 1`,
`criteria3 = 2/121`, `criteria4 = 2`). -/
theorem flag_d06_flag9_wit : 9 ∈ qflagAt spikeRes 12 :=
  (flag_d06_flag9 spikeTbl (savgolD2 exSM) rfl spikeRes flag_d06_spikeTbl 12
    (by decide)).mpr
    (Or.inr (Or.inl ⟨Or.inl (Or.inl ⟨6 / 5, by with_unfolding_all decide,
        by with_unfolding_all decide⟩),
      ⟨1, by with_unfolding_all decide, by with_unfolding_all decide,
        by with_unfolding_all decide⟩,
      ⟨2 / 121, by with_unfolding_all decide, by with_unfolding_all decide⟩,
      ⟨2, by with_unfolding_all decide, by with_unfolding_all decide⟩⟩))

/-- Claim C8: every detector leaves the raw input columns — soil moisture,
the temperatures, the precipitations — and the derivative columns unchanged
(timestamps are positional and untouched by construction); the only mutated
state is the per-row qflag set, and only additively: each final row set
contains its initial one. -/
theorem detectors_frame (d : Detector) (df dfr : Table) (h : applyD d df = some dfr) :
    dfr.soil_moisture = df.soil_moisture ∧
    dfr.soil_temperature = df.soil_temperature ∧
    dfr.air_temperature = df.air_temperature ∧
    dfr.gldas_soil_temperature = df.gldas_soil_temperature ∧
    dfr.precipitation = df.precipitation ∧
    dfr.gldas_precipitation = df.gldas_precipitation ∧
    dfr.deriv1 = df.deriv1 ∧
    dfr.deriv2 = df.deriv2 ∧
    ∀ t, qflagAt df t ⊆ qflagAt dfr t := by
  have hT : dfr = applyT d df := by
    unfold applyT
    rw [h]
    rfl
  rw [hT, applyT_char]
  refine ⟨rfl, rfl, rfl, rfl, rfl, rfl, rfl, rfl, ?_⟩
  intro t
  exact subset_addFlag (codeOf d) (maskT d df) df.qflag 0 t

def w8tbl : Table := { soil_moisture := [some (-1)], qflag := [{2}] }

/-- Witness for C8: a run of the lower-boundary detector keeps the existing
qflag content of row 0. -/
theorem detectors_frame_wit : qflagAt w8tbl 0 ⊆ qflagAt (flag_c01 w8tbl) 0 :=
  (detectors_frame Detector.c01 w8tbl (flag_c01 w8tbl) rfl).2.2.2.2.2.2.2.2 0

/-- Claim C9: with the derivative columns present (the derivative engine has
run), re-running any detector is a no-op on the qflag sets, and running the
nine detectors in any permutation of the source order produces the same
final qflag column as the pipeline order. -/
theorem detectors_idem_perm (df : Table) (d2 : List (Option ℚ))
    (hd : df.deriv2 = some d2) :
    (∀ d : Detector, (applyD d df).bind (applyD d) = applyD d df) ∧
    (∀ l : List Detector, l.Perm pipelineOrder →
      (runAll l df).map Table.qflag = (runAll pipelineOrder df).map Table.qflag) := by
  have hs : df.deriv2.isSome := by rw [hd]; rfl
  constructor
  · intro d
    rw [applyD_some d df hs, Option.some_bind]
    have hs2 : (applyT d df).deriv2.isSome := by rw [applyT_deriv2]; exact hs
    rw [applyD_some d _ hs2]
    exact congrArg some (applyT_idem d df)
  · intro l hp
    rw [runAll_eq l df hs, runAll_eq pipelineOrder df hs,
      runAllT_perm l pipelineOrder hp df]

def w9tbl : Table := { soil_moisture := [some 1], deriv2 := some [some 0], qflag := [∅] }

/-- Witness for C9: re-running the in-situ rise detector is a no-op, and the
pipeline order with its first two detectors swapped gives the same qflag
column. -/
theorem detectors_idem_perm_wit :
    (applyD Detector.d04 w9tbl).bind (applyD Detector.d04) = applyD Detector.d04 w9tbl ∧
    (runAll [Detector.c02, Detector.c01, Detector.c03, Detector.d01, Detector.d02,
        Detector.d03, Detector.d04, Detector.d05, Detector.d06] w9tbl).map Table.qflag =
      (runAll pipelineOrder w9tbl).map Table.qflag :=
  ⟨(detectors_idem_perm w9tbl [some 0] rfl).1 Detector.d04,
   (detectors_idem_perm w9tbl [some 0] rfl).2 _
     (List.Perm.swap Detector.c01 Detector.c02 _)⟩
